import Mathlib

/-!
Shallow embedding of the `exchange_observer` repository (Python) for checking
its natural-language specification.

Conventions of the embedding:
* prices and quantities are rationals (`ℚ`); absent values are `Option.none`
  (pandas `NaN` / Python `None`);
* UTC instants are integers (`ℤ`, seconds); `datetime.now(timezone.utc)` is an
  explicit `now` parameter threaded to each function that reads the clock;
* the pandas dataframe of `PriceDataStore` is a list of rows (one row per
  `(exchange, symbol)` index entry, in insertion order);
* Python exceptions are `Except PyErr`.
-/

namespace ExchangeObserver

/-- Python `Exchange(StrEnum)` from `core/models.py`: NONE, BINANCE, BYBIT, GATEIO. -/
inductive Exchange where
  | none
  | binance
  | bybit
  | gateio
deriving DecidableEq, Repr

/-- The string value of each enum member (`core/models.py` lines 6-10). -/
def Exchange.value : Exchange → String
  | .none => ""
  | .binance => "Binance"
  | .bybit => "Bybit"
  | .gateio => "Gate.io"

/-- Python exceptions that the embedded code can raise. -/
inductive PyErr where
  | attributeError (name : String)
  | typeError (kwarg : String)
  | keyError
  | valueError (s : String)
deriving DecidableEq, Repr

/-- Python `Exchange(s)` — the StrEnum constructor from a raw string; an unknown
string raises `ValueError`. -/
def exchangeFromValue (s : String) : Except PyErr Exchange :=
  if s = "" then .ok .none
  else if s = "Binance" then .ok .binance
  else if s = "Bybit" then .ok .bybit
  else if s = "Gate.io" then .ok .gateio
  else .error (.valueError s)

/-- The `@dataclass PriceData` of `core/models.py` lines 13-21: its seven
fields, and no others (in particular no `base_coin`, `quote_coin` or
`last_price` field). `timestamp_utc` has default `datetime.now(timezone.utc)`;
construction sites of the embedding pass the clock explicitly. -/
structure PriceData where
  exchange : Exchange
  symbol : String
  bid_price : Option ℚ := Option.none
  bid_quantity : Option ℚ := Option.none
  ask_price : Option ℚ := Option.none
  ask_quantity : Option ℚ := Option.none
  timestamp_utc : ℤ
deriving DecidableEq, Repr

/-- The four string-keyed fields of `PriceData.update` that go through the
`float(value)` path (`core/models.py` line 26). -/
def priceKeys : List String := ["bid_price", "bid_quantity", "ask_price", "ask_quantity"]

/-- The field names of the `PriceData` dataclass, i.e. the names for which
Python `hasattr(self, key)` is true on a `PriceData` instance. -/
def PriceData.fieldNames : List String :=
  ["exchange", "symbol", "bid_price", "bid_quantity", "ask_price", "ask_quantity", "timestamp_utc"]

/-- Python `setattr(self, key, float_value)` for one of the four price keys. -/
def PriceData.setPriceField (pd : PriceData) (key : String) (x : ℚ) : PriceData :=
  if key = "bid_price" then { pd with bid_price := some x }
  else if key = "bid_quantity" then { pd with bid_quantity := some x }
  else if key = "ask_price" then { pd with ask_price := some x }
  else if key = "ask_quantity" then { pd with ask_quantity := some x }
  else pd

/-- Read one of the four price fields as the dynamic `Option ℚ` it holds. -/
def PriceData.getPriceField (pd : PriceData) (key : String) : Option ℚ :=
  if key = "bid_price" then pd.bid_price
  else if key = "bid_quantity" then pd.bid_quantity
  else if key = "ask_price" then pd.ask_price
  else if key = "ask_quantity" then pd.ask_quantity
  else Option.none

/-- One loop step of `PriceData.update` (`core/models.py` lines 24-32):
skip when `value is None` or `hasattr` fails; for the four price keys run
`float(value)` (abstracted as the `parse` argument, `Option.none` standing
for `ValueError`/`TypeError`, in which case `pass` keeps the old value);
`symbol` is set verbatim.  The remaining `hasattr` keys (`exchange`,
`timestamp_utc`) would be `setattr`-ed with the raw string by Python; no
caller passes them and they touch none of the price fields, so the embedding
leaves the record unchanged for them. -/
def PriceData.updateEntry (parse : String → Option ℚ) (pd : PriceData)
    (entry : String × Option String) : PriceData :=
  match entry with
  | (_, Option.none) => pd
  | (key, some v) =>
    if key ∈ priceKeys then
      match parse v with
      | some x => pd.setPriceField key x
      | Option.none => pd
    else if key = "symbol" then { pd with symbol := v }
    else pd

/-- Method `PriceData.update(new_data)` (`core/models.py` lines 23-32): the dict is a
list of key/value pairs processed in order. -/
def PriceData.update (parse : String → Option ℚ) (pd : PriceData)
    (new_data : List (String × Option String)) : PriceData :=
  new_data.foldl (PriceData.updateEntry parse) pd

/-- One row of the `PriceDataStore` dataframe (`core/price_data_store.py`
lines 9-33): index `(exchange, symbol)` plus the eight value columns. -/
structure Row where
  exchange : String
  symbol : String
  base_coin : String
  quote_coin : String
  last_price : Option ℚ
  bid_price : Option ℚ
  bid_quantity : Option ℚ
  ask_price : Option ℚ
  ask_quantity : Option ℚ
  timestamp_utc : ℤ
deriving DecidableEq, Repr

/-- A dynamically-typed Python attribute value, as stored in a dataframe cell. -/
inductive ColValue where
  | exch (e : Exchange)
  | str (v : String)
  | qopt (v : Option ℚ)
  | time (v : ℤ)
deriving DecidableEq, Repr

/-- Python `getattr` on a `models.py` `PriceData` instance: exactly the seven
dataclass fields exist; any other attribute name (in particular `base_coin`,
`quote_coin` and `last_price`, which `price_data_store.py` reads) raises
`AttributeError`. -/
def PriceData.getattr (pd : PriceData) (name : String) : Except PyErr ColValue :=
  if name = "exchange" then .ok (.exch pd.exchange)
  else if name = "symbol" then .ok (.str pd.symbol)
  else if name = "bid_price" then .ok (.qopt pd.bid_price)
  else if name = "bid_quantity" then .ok (.qopt pd.bid_quantity)
  else if name = "ask_price" then .ok (.qopt pd.ask_price)
  else if name = "ask_quantity" then .ok (.qopt pd.ask_quantity)
  else if name = "timestamp_utc" then .ok (.time pd.timestamp_utc)
  else .error (.attributeError name)

def ColValue.asStr : ColValue → String
  | .str s => s
  | _ => ""

def ColValue.asQopt : ColValue → Option ℚ
  | .qopt q => q
  | _ => Option.none

/-- The column-by-column `df.loc[idx, col] = value` writes of
`update_price_data` (`core/price_data_store.py` lines 54-55), which upsert the
`(exchange, symbol)` row. -/
def upsertRow (store : List Row) (ex sym : String)
    (base quote lastp bid bidq ask askq : ColValue) (now : ℤ) : List Row :=
  let newRow : Row :=
    ⟨ex, sym, base.asStr, quote.asStr, lastp.asQopt,
      bid.asQopt, bidq.asQopt, ask.asQopt, askq.asQopt, now⟩
  if store.any (fun r => r.exchange = ex ∧ r.symbol = sym) then
    store.map (fun r => if r.exchange = ex ∧ r.symbol = sym then newRow else r)
  else
    store ++ [newRow]

/-- Method `PriceDataStore.update_price_data` (`core/price_data_store.py` lines
39-55).  The `data_to_update` dict literal evaluates its values in source
order, starting with `price_data.base_coin`; each read is a dynamic attribute
access on the `PriceData` argument. -/
def updatePriceData (store : List Row) (price_data : PriceData) (now : ℤ) :
    Except PyErr (List Row) := do
  let base ← price_data.getattr "base_coin"
  let quote ← price_data.getattr "quote_coin"
  let lastp ← price_data.getattr "last_price"
  let bid ← price_data.getattr "bid_price"
  let bidq ← price_data.getattr "bid_quantity"
  let ask ← price_data.getattr "ask_price"
  let askq ← price_data.getattr "ask_quantity"
  .ok (upsertRow store price_data.exchange.value price_data.symbol
        base quote lastp bid bidq ask askq now)

/-- Lookup `self.df.loc[(exchange.value, symbol)]`: first row with the given index,
or `KeyError`. -/
def dfLoc (store : List Row) (ex sym : String) : Except PyErr Row :=
  match store.find? (fun r => r.exchange = ex && r.symbol = sym) with
  | some r => .ok r
  | Option.none => .error .keyError

/-- Python dataclass keyword construction `PriceData(**kwargs)`: a keyword
that is not a field of the dataclass raises `TypeError` (the first offending
keyword, in call order, is reported).  `kwargs` lists the keyword names in the
order they appear at the call site. -/
def priceDataUnexpectedKwarg (kwargs : List String) : Option String :=
  kwargs.find? (fun k => !(PriceData.fieldNames.contains k))

/-- The keyword names of the `PriceData(...)` call in `get_data_for_symbol`
(`core/price_data_store.py` lines 63-73), in source order.  `timestamp_utc`
is not among them, so the dataclass default (current clock) would apply. -/
def getDataKwargNames : List String :=
  ["exchange", "symbol", "base_coin", "quote_coin", "last_price",
   "bid_price", "bid_quantity", "ask_price", "ask_quantity"]

/-- Method `PriceDataStore.get_data_for_symbol` (`core/price_data_store.py` lines
60-75): look the row up; on `KeyError` return `None`; otherwise call the
`PriceData` constructor with the nine keywords of `getDataKwargNames` — an
unexpected keyword raises `TypeError`, which is *not* caught (only `KeyError`
is).  When all keywords are accepted the constructed record would carry the
row's price fields and a `timestamp_utc` freshly drawn from the clock. -/
def getDataForSymbol (store : List Row) (exchange : Exchange) (symbol : String)
    (now : ℤ) : Except PyErr (Option PriceData) :=
  match dfLoc store exchange.value symbol with
  | .error .keyError => .ok Option.none
  | .error e => .error e
  | .ok row =>
    match priceDataUnexpectedKwarg getDataKwargNames with
    | some k => .error (.typeError k)
    | Option.none =>
      .ok (some { exchange := exchange, symbol := symbol,
                  bid_price := row.bid_price, bid_quantity := row.bid_quantity,
                  ask_price := row.ask_price, ask_quantity := row.ask_quantity,
                  timestamp_utc := now })

/-! ## The arbitrage scan (`find_arbitrage_opportunities`) -/

/-- One row of the opportunities dataframe built at
`core/price_data_store.py` lines 151-162. -/
structure OppRecord where
  symbol : String
  buy_exchange : String
  buy_price : ℚ
  sell_exchange : String
  sell_price : ℚ
  profit_percent : ℚ
  last_updated_buy : ℤ
  last_updated_sell : ℤ
deriving DecidableEq, Repr

/-- The freshness filter (`core/price_data_store.py` lines 125-128):
keep rows with `now - timestamp_utc <= timedelta(seconds=maxAge)`. -/
def freshRows (store : List Row) (now : ℤ) (maxAge : ℤ) : List Row :=
  store.filter (fun r => now - r.timestamp_utc ≤ maxAge)

/-- A row surviving `dropna(subset=["bid_price", "ask_price"])`, with both
prices extracted. -/
structure PRow where
  exchange : String
  bid : ℚ
  ask : ℚ
  timestamp_utc : ℤ
deriving DecidableEq, Repr

/-- Step `group.dropna(subset=["bid_price", "ask_price"])`
(`core/price_data_store.py` line 134). -/
def validPrices (group : List Row) : List PRow :=
  group.filterMap (fun r =>
    match r.bid_price, r.ask_price with
    | some b, some a => some ⟨r.exchange, b, a, r.timestamp_utc⟩
    | _, _ => Option.none)

/-- Step `df["c"].idxmin()` then `.loc`: the first row attaining the minimal value
of `f` (pandas `idxmin` returns the first occurrence of the minimum). -/
def minByFirst (f : α → ℚ) (l : List α) : Option α :=
  l.foldl (fun acc x =>
    match acc with
    | Option.none => some x
    | some y => if f x < f y then some x else some y) Option.none

/-- Step `df["c"].idxmax()` then `.loc`: the first row attaining the maximal value
of `f`. -/
def maxByFirst (f : α → ℚ) (l : List α) : Option α :=
  l.foldl (fun acc x =>
    match acc with
    | Option.none => some x
    | some y => if f x > f y then some x else some y) Option.none

/-- Constant defined at `core/price_data_store.py` line 149.  The comparison
`profit_percent < MAX_ACCEPTABLE_PROFIT_PERCENT` on line 150 is commented out
in the source, so the constant is dead code there. -/
def MAX_ACCEPTABLE_PROFIT_PERCENT : ℚ := 1/2

/-- The opportunity record appended at `core/price_data_store.py` lines
151-162, for best-ask row `ba` and best-bid row `bb` of symbol `s`. -/
def mkOppRecord (s : String) (ba bb : PRow) : OppRecord :=
  { symbol := s, buy_exchange := ba.exchange, buy_price := ba.ask,
    sell_exchange := bb.exchange, sell_price := bb.bid,
    profit_percent := (bb.bid - ba.ask) / ba.ask * 100,
    last_updated_buy := ba.timestamp_utc, last_updated_sell := bb.timestamp_utc }

/-- The body of the `groupby("symbol")` loop (`core/price_data_store.py`
lines 130-162) for one symbol `s` over the freshness-filtered rows:
skip groups of fewer than two rows; drop rows lacking a bid or an ask and
skip if none survive; take the first-minimal-ask row and the first-maximal-bid
row; skip a same-exchange pair; compute `profit = (sell - buy) / buy` and emit
when `profit >= min_profit_percent`.  The upper bound
`profit < MAX_ACCEPTABLE_PROFIT_PERCENT` is commented out in the source
(line 150) and is therefore absent here. -/
def scanSymbol (fresh : List Row) (minP : ℚ) (s : String) : List OppRecord :=
  let group := fresh.filter (fun r => r.symbol = s)
  if group.length < 2 then []
  else
    let valid := validPrices group
    match minByFirst (fun r => r.ask) valid, maxByFirst (fun r => r.bid) valid with
    | some bestAsk, some bestBid =>
      if bestAsk.exchange = bestBid.exchange then []
      else
        if minP ≤ (bestBid.bid - bestAsk.ask) / bestAsk.ask then [mkOppRecord s bestAsk bestBid]
        else []
    | _, _ => []

/-- The distinct symbols of the fresh rows.  (pandas `groupby` iterates group
keys in sorted order; the scan's emission order is irrelevant to every
property below, so symbols are deduplicated keeping one occurrence each.) -/
def symbolsOf (fresh : List Row) : List String :=
  (fresh.map (fun r => r.symbol)).dedup

/-- Method `PriceDataStore.find_arbitrage_opportunities` (`core/price_data_store.py`
lines 119-178): freshness filter, group by symbol, per-group best-ask/best-bid
scan, collected opportunity rows. -/
def findArbitrageOpportunities (store : List Row) (now : ℤ) (minP : ℚ)
    (maxAge : ℤ) : List OppRecord :=
  (symbolsOf (freshRows store now maxAge)).flatMap
    (scanSymbol (freshRows store now maxAge) minP)

/-- Modelled from the spec (§4.6, steps 1-7): the pair-enumeration form of the
opportunity scan, which spec §9 declares authoritative and requires to produce
output identical to the best-ask/best-bid form.  For each symbol group with at
least two quotes that each have both bid and ask, all ordered cross-venue
pairs are enumerated and an opportunity is emitted when
`minProfitPercent ≤ profit < maxAcceptableProfitPercent`. -/
def findOpportunitiesSpec (store : List Row) (now : ℤ) (minP : ℚ)
    (maxAge : ℤ) : List OppRecord :=
  (symbolsOf (freshRows store now maxAge)).flatMap (fun s =>
    let valid := validPrices ((freshRows store now maxAge).filter (fun r => r.symbol = s))
    if valid.length < 2 then []
    else
      valid.flatMap (fun buy =>
        valid.filterMap (fun sell =>
          if buy.exchange = sell.exchange then Option.none
          else
            let profit := (sell.bid - buy.ask) / buy.ask
            if minP ≤ profit ∧ profit < MAX_ACCEPTABLE_PROFIT_PERCENT then
              some (mkOppRecord s buy sell)
            else Option.none)))

/-! ## One iteration of the scanner loop (`ArbitrageEngine.arbitrage_loop`) -/

/-- The `opportunity_details` dict built at `core/arbitrage_engine.py` lines
54-67.  `buy_bid = buy_data.bid_price if buy_data else "N/A"`: both a `None`
price and the `"N/A"` placeholder are `Option.none` here. -/
structure OppDetails where
  symbol : String
  buy_exchange : String
  buy_price : ℚ
  buy_bid : Option ℚ
  buy_ask : Option ℚ
  sell_exchange : String
  sell_price : ℚ
  sell_bid : Option ℚ
  sell_ask : Option ℚ
  profit_percent : ℚ
  buy_data_age : ℤ
  sell_data_age : ℤ
deriving DecidableEq, Repr

def buildOppDetails (now : ℤ) (o : OppRecord) (buyData sellData : Option PriceData) :
    OppDetails :=
  { symbol := o.symbol, buy_exchange := o.buy_exchange, buy_price := o.buy_price,
    buy_bid := buyData.bind (fun d => d.bid_price),
    buy_ask := buyData.bind (fun d => d.ask_price),
    sell_exchange := o.sell_exchange, sell_price := o.sell_price,
    sell_bid := sellData.bind (fun d => d.bid_price),
    sell_ask := sellData.bind (fun d => d.ask_price),
    profit_percent := o.profit_percent,
    buy_data_age := now - o.last_updated_buy,
    sell_data_age := now - o.last_updated_sell }

/-- The `for symbol, row in opportunities_df.iterrows()` body of
`arbitrage_loop` (`core/arbitrage_engine.py` lines 42-79), accumulating the
calls made to `arbitrage_callback`.  Each row first converts the stored
exchange strings back through `Exchange(...)` and calls
`get_data_for_symbol`; an exception there escapes the `for` loop into the
iteration's `except Exception` handler, which logs and swallows it — the
calls already made stand, no further call happens this iteration.  When
`self.arbitrage_callback` is unset (`hasCallback = false`) the details are
built but no call is recorded. -/
def arbitrageProcessRows (store : List Row) (now : ℤ) (hasCallback : Bool) :
    List OppRecord → List OppDetails → List OppDetails
  | [], acc => acc
  | o :: rest, acc =>
    match (do
        let buyEx ← exchangeFromValue o.buy_exchange
        let buyData ← getDataForSymbol store buyEx o.symbol now
        let sellEx ← exchangeFromValue o.sell_exchange
        let sellData ← getDataForSymbol store sellEx o.symbol now
        pure (buyData, sellData) : Except PyErr (Option PriceData × Option PriceData)) with
    | .error _ => acc
    | .ok (buyData, sellData) =>
      arbitrageProcessRows store now hasCallback rest
        (if hasCallback then acc ++ [buildOppDetails now o buyData sellData] else acc)

/-- One iteration of `ArbitrageEngine.arbitrage_loop` (`core/arbitrage_engine.py`
lines 32-88): run the scan, then walk the opportunity rows; the result is the
list of arguments passed to `arbitrage_callback`, in call order.  An empty
scan only logs. -/
def arbitrageIterationCalls (store : List Row) (now : ℤ) (minP : ℚ) (maxAge : ℤ)
    (hasCallback : Bool) : List OppDetails :=
  arbitrageProcessRows store now hasCallback
    (findArbitrageOpportunities store now minP maxAge) []

/-! ## `ExchangeDataManager.stop` -/

/-- The externally observable shutdown steps of `ExchangeDataManager.stop`. -/
inductive StopAction where
  | stopClient (e : Exchange)
  | cancelScanner
deriving DecidableEq, Repr

/-- Method `ExchangeDataManager.stop` (`core/exchange_data_manager.py` lines
130-151) as the ordered trace of its shutdown actions: a no-op unless
running; otherwise `client.stop()` is initiated for every client (gathered in
parallel and awaited, with no timeout bound), and only after all of them
complete is the arbitrage task cancelled and awaited (the `if
self.arbitrage_task` guard is `hasTask`). -/
def exchangeDataManagerStop (isRunning : Bool) (clients : List Exchange)
    (hasTask : Bool) : List StopAction :=
  if !isRunning then []
  else clients.map StopAction.stopClient ++ (if hasTask then [.cancelScanner] else [])

/-! ## Bybit subscription chunking -/

/-- Constant from `config.py` line 10.  (`bybit_client.py` imports it under the
name `BYBIT_MAX_ARGS_PER_MESSAGE`, which `config.py` does not define.) -/
def MAX_ARGS_PER_MESSAGE : Nat := 10

/-- One WebSocket frame `{"op": "subscribe", "args": [...]}` serialized by
`json.dumps` at `bybit_client.py` line 78. -/
structure SubscribeFrame where
  op : String
  args : List String
deriving DecidableEq, Repr

/-- The `subscribe_args` list built at `bybit_client.py` lines 70-73: two
topics per symbol, `tickers.<S>` then `orderbook.1.<S>`, in symbol order. -/
def bybitSubscribeArgs (symbols : List String) : List String :=
  symbols.flatMap (fun s => ["tickers." ++ s, "orderbook.1." ++ s])

/-- Structural helper for `chunksOf`: the fuel bounds the number of chunks
(one chunk per step consumes at least one element when `0 < n`, so
`l.length` fuel is always enough). -/
def chunksOfFuel (n : Nat) : Nat → List α → List (List α)
  | 0, _ => []
  | _, [] => []
  | fuel + 1, x :: xs => (x :: xs).take n :: chunksOfFuel n fuel ((x :: xs).drop n)

/-- Loop `range(0, len(args), n)` slicing `args[i : i + n]`
(`bybit_client.py` lines 75-76).  The chunk size is the positive constant 10
in the source; for completeness a zero chunk size yields no chunks (Python
`range` with step 0 raises there). -/
def chunksOf (n : Nat) (l : List α) : List (List α) :=
  if n = 0 then [] else chunksOfFuel n l.length l

/-- Method `BybitClient.subscribe_symbols` (`bybit_client.py` lines 65-87): the
ordered list of subscribe frames sent over the socket. -/
def bybitSubscribeFrames (symbols : List String) : List SubscribeFrame :=
  (chunksOf MAX_ARGS_PER_MESSAGE (bybitSubscribeArgs symbols)).map
    (fun chunk => { op := "subscribe", args := chunk })

/-! ## Base-client hooks versus adapter methods -/

/-- Method names relevant to the `BaseExchangeClient` adapter contract. -/
inductive Hook where
  | fetch_symbols
  | subscribe_symbols
  | is_ping_message
  | is_pong_message
  | send_ping
  | handle_ping
  | handle_pong
  | handle_message
  | process_message
  | handle_single_item_data
deriving DecidableEq, Repr

/-- The `@abstractmethod` hooks declared by `BaseExchangeClient`
(`exchanges/base_client.py` lines 53-83). -/
def baseAbstractHooks : List Hook :=
  [.is_ping_message, .is_pong_message, .fetch_symbols, .subscribe_symbols,
   .send_ping, .handle_ping, .handle_pong, .handle_message]

/-- The methods (other than `__init__`) defined by `BybitClient`
(`exchanges/bybit_client.py` lines 12-132). -/
def bybitClientMethods : List Hook :=
  [.fetch_symbols, .subscribe_symbols, .process_message]

/-- The methods (other than `__init__`) defined by `BinanceClient`
(`exchanges/binance_client.py` lines 12-107). -/
def binanceClientMethods : List Hook :=
  [.fetch_symbols, .subscribe_symbols, .process_message, .handle_single_item_data]

/-- The methods (other than `__init__`) defined by `GateioClient`
(`exchanges/gateio_client.py` lines 13-138). -/
def gateioClientMethods : List Hook :=
  [.fetch_symbols, .subscribe_symbols, .process_message]

/-! ## Concrete stores used by the closed theorems -/

/-- Spec §8 scenario 1: fresh BTCUSDT quotes on Binance (bid 30000 / ask
30010) and Bybit (bid 30100 / ask 30110), both stored at instant 0. -/
def demoStore : List Row :=
  [⟨"Binance", "BTCUSDT", "BTC", "USDT", Option.none, some 30000, Option.none,
     some 30010, Option.none, 0⟩,
   ⟨"Bybit", "BTCUSDT", "BTC", "USDT", Option.none, some 30100, Option.none,
     some 30110, Option.none, 0⟩]

/-- Spec §8 scenario 4: the cross-venue pair has buy ask 1 (Bybit) and sell
bid 2 (Binance), a 100% spread. -/
def capStore : List Row :=
  [⟨"Binance", "AAAUSDT", "AAA", "USDT", Option.none, some 2, Option.none,
     some 3, Option.none, 0⟩,
   ⟨"Bybit", "AAAUSDT", "AAA", "USDT", Option.none, some (9/10), Option.none,
     some 1, Option.none, 0⟩]

/-- Two fresh quotes where the minimal ask and the maximal bid sit on the same
venue (Binance), while the cross-venue pair (buy Bybit at 3/2, sell Binance at
2, profit 1/3) passes both the lower threshold 1/10 and the upper cap 1/2. -/
def divergeStore : List Row :=
  [⟨"Binance", "AAAUSDT", "AAA", "USDT", Option.none, some 2, Option.none,
     some 1, Option.none, 0⟩,
   ⟨"Bybit", "AAAUSDT", "AAA", "USDT", Option.none, some (19/10), Option.none,
     some (3/2), Option.none, 0⟩]

/-! ## Theorems -/

/-- Claim C6.  The spec says `update(Quote)` never fails, upserts by
`(venue, symbol)` and stamps the store clock; but for every store, every
`PriceData` and every clock instant, `update_price_data` raises
`AttributeError` on its very first attribute read, because it reads
`price_data.base_coin` and the `models.py` `PriceData` dataclass has no such
field.  Nothing is ever stored. -/
theorem update_price_data_always_raises (store : List Row) (pd : PriceData)
    (now : ℤ) :
    updatePriceData store pd now = .error (.attributeError "base_coin") := rfl

/-- Claim C3, evaluated at the failing input.  On a store holding the two
fresh cross-venue BTCUSDT quotes of spec scenario 1 the scan finds exactly one
opportunity, yet one iteration of `arbitrage_loop` performs zero callback
invocations: building the per-opportunity details calls
`get_data_for_symbol`, which raises `TypeError` (unexpected keyword
`base_coin` to the `PriceData` constructor), and the loop's
`except Exception` handler swallows it before any call to
`arbitrage_callback`.  The claim requires exactly one invocation carrying the
full list. -/
theorem scanner_iteration_makes_no_callback_call :
    (findArbitrageOpportunities demoStore 0 (1/1000) 60).length = 1 ∧
      arbitrageIterationCalls demoStore 0 (1/1000) 60 true = [] := by
  constructor
  · norm_num +decide [findArbitrageOpportunities, freshRows, symbolsOf,
      scanSymbol, validPrices, minByFirst, maxByFirst, mkOppRecord, demoStore,
      List.dedup_cons_of_mem, List.dedup_cons_of_not_mem,
      List.filterMap_cons, List.foldl_cons, List.foldl_nil]
  · norm_num +decide [arbitrageIterationCalls, arbitrageProcessRows,
      findArbitrageOpportunities, freshRows, symbolsOf, scanSymbol,
      validPrices, minByFirst, maxByFirst, mkOppRecord, demoStore,
      exchangeFromValue, getDataForSymbol, dfLoc, priceDataUnexpectedKwarg,
      getDataKwargNames, PriceData.fieldNames,
      List.dedup_cons_of_mem, List.dedup_cons_of_not_mem,
      List.filterMap_cons, List.foldl_cons, List.foldl_nil]

/-- Claim C4, refuted at a concrete input.  From the running state with
clients Binance and Bybit, the shutdown trace of `ExchangeDataManager.stop`
initiates the client stops first (index 0) and cancels the scanner last
(index 2) — the claim demands the scanner be stopped before any client stop
is initiated. -/
theorem manager_stop_trace_clients_first :
    exchangeDataManagerStop true [.binance, .bybit] true =
      [.stopClient .binance, .stopClient .bybit, .cancelScanner] ∧
    (exchangeDataManagerStop true [.binance, .bybit] true).findIdx
      (fun a => a == StopAction.cancelScanner) = 2 ∧
    (exchangeDataManagerStop true [.binance, .bybit] true).findIdx
      (fun a => a == StopAction.stopClient .binance) = 0 := by
  refine ⟨rfl, ?_, ?_⟩ <;> rfl

/-- Claim C4 as amended: in every shutdown trace from the running state, every
client stop precedes the scanner cancellation. -/
theorem manager_stop_clients_before_scanner (clients : List Exchange)
    (i j : ℕ) (e : Exchange)
    (hi : (exchangeDataManagerStop true clients true).get? i =
      some (.stopClient e))
    (hj : (exchangeDataManagerStop true clients true).get? j =
      some .cancelScanner) : i < j := by
  have htr : exchangeDataManagerStop true clients true =
      clients.map StopAction.stopClient ++ [StopAction.cancelScanner] := rfl
  rw [htr] at hi hj
  clear htr
  induction clients generalizing i j with
  | nil =>
    cases i with
    | zero => simp at hi
    | succ i => simp at hi
  | cons c cs ih =>
    cases j with
    | zero => simp at hj
    | succ j =>
      cases i with
      | zero => omega
      | succ i => exact Nat.succ_lt_succ (ih i j (by simpa using hi) (by simpa using hj))

/-- Closed instance for `manager_stop_clients_before_scanner`: with the single
client Binance, the client stop sits at index 0 of the trace and the scanner
cancellation at index 1. -/
theorem manager_stop_clients_before_scanner_witness :
    (exchangeDataManagerStop true [.binance] true).get? 0 =
        some (.stopClient .binance) ∧
      (exchangeDataManagerStop true [.binance] true).get? 1 =
        some .cancelScanner ∧
      (0 : ℕ) < 1 :=
  ⟨rfl, rfl, manager_stop_clients_before_scanner [.binance] 0 1 .binance rfl rfl⟩

/-- Claim C7, refuted at a concrete input.  For 25 symbols the Bybit adapter
builds two subscription args per symbol (`tickers.<S>` and
`orderbook.1.<S>`), 50 args in all, and sends five frames of 10 args each —
not three frames of 10, 10 and 5. -/
theorem bybit_chunking_five_frames :
    (bybitSubscribeFrames (List.replicate 25 "BTCUSDT")).map
        (fun f => f.args.length) = [10, 10, 10, 10, 10] ∧
      (bybitSubscribeFrames (List.replicate 25 "BTCUSDT")).length ≠ 3 := by
  constructor <;> decide

/-- Claim C8.  The base client declares eight abstract hooks; the three
adapters implement only `fetch_symbols` and `subscribe_symbols` of them
(defining `process_message`, which the base never calls, instead of
`handle_message`), so six abstract hooks — the ping/pong classifiers and
handlers and `handle_message` — are left undefined by every adapter and
Python's ABC machinery refuses to instantiate any of them. -/
theorem adapters_do_not_implement_base_hooks :
    ([Hook.is_ping_message, .is_pong_message, .send_ping, .handle_ping,
        .handle_pong, .handle_message].all
      (fun h => baseAbstractHooks.contains h &&
        !(bybitClientMethods.contains h) &&
        !(binanceClientMethods.contains h) &&
        !(gateioClientMethods.contains h))) = true := by decide

/-- Claim C10, refuted at a concrete input.  The key (Binance, BTCUSDT) is
present in `demoStore`, yet `get_data_for_symbol` does not return a
`PriceData` whose `timestamp_utc` is the call-time clock — it raises
`TypeError`, because the constructor call passes the keywords `base_coin`,
`quote_coin` and `last_price` that the dataclass does not accept, and only
`KeyError` is caught. -/
theorem get_data_for_symbol_raises_for_present_key :
    (demoStore.any (fun r => r.exchange = "Binance" && r.symbol = "BTCUSDT")) = true ∧
      getDataForSymbol demoStore .binance "BTCUSDT" 5 =
        .error (.typeError "base_coin") := by
  exact ⟨rfl, rfl⟩

/-- Claim C10 as amended: for every store, key and clock instant, when the
row lookup succeeds `get_data_for_symbol` raises `TypeError` on the keyword
`base_coin` (so no `PriceData`, fresh-stamped or otherwise, is ever
returned for a present key), and when the lookup raises `KeyError` it
returns `None`. -/
theorem get_data_for_symbol_behavior (store : List Row) (ex : Exchange)
    (sym : String) (now : ℤ) :
    (∀ row, dfLoc store ex.value sym = .ok row →
        getDataForSymbol store ex sym now = .error (.typeError "base_coin")) ∧
      (dfLoc store ex.value sym = .error .keyError →
        getDataForSymbol store ex sym now = .ok Option.none) := by
  have hkw : priceDataUnexpectedKwarg getDataKwargNames = some "base_coin" := rfl
  constructor
  · intro row h
    simp [getDataForSymbol, h, hkw]
  · intro h
    simp [getDataForSymbol, h]

/-- Closed instance for `get_data_for_symbol_behavior`: the lookup of
(Binance, BTCUSDT) in `demoStore` succeeds, and the call raises `TypeError`. -/
theorem get_data_for_symbol_behavior_witness :
    dfLoc demoStore Exchange.binance.value "BTCUSDT" = .ok
        ⟨"Binance", "BTCUSDT", "BTC", "USDT", Option.none, some 30000,
          Option.none, some 30010, Option.none, 0⟩ ∧
      getDataForSymbol demoStore .binance "BTCUSDT" 5 =
        .error (.typeError "base_coin") :=
  ⟨rfl, (get_data_for_symbol_behavior demoStore .binance "BTCUSDT" 5).1
    ⟨"Binance", "BTCUSDT", "BTC", "USDT", Option.none, some 30000,
      Option.none, some 30010, Option.none, 0⟩ rfl⟩

lemma bybitSubscribeArgs_length (symbols : List String) :
    (bybitSubscribeArgs symbols).length = 2 * symbols.length := by
  induction symbols with
  | nil => rfl
  | cons s rest ih =>
    simp only [bybitSubscribeArgs, List.flatMap_cons] at ih ⊢
    simp [ih]
    omega

lemma chunksOfFuel_map_length (k : ℕ) :
    ∀ (fuel : ℕ) (l : List α), l.length = 10 * k → k ≤ fuel →
      (chunksOfFuel 10 fuel l).map List.length = List.replicate k 10 := by
  induction k with
  | zero =>
    intro fuel l hl _
    have : l = [] := List.eq_nil_of_length_eq_zero (by omega)
    subst this
    cases fuel <;> rfl
  | succ k ih =>
    intro fuel l hl hk
    obtain ⟨x, xs, rfl⟩ : ∃ x xs, l = x :: xs := by
      cases l with
      | nil => simp at hl
      | cons x xs => exact ⟨x, xs, rfl⟩
    obtain ⟨f, rfl⟩ : ∃ f, fuel = f + 1 := by
      cases fuel with
      | zero => omega
      | succ f => exact ⟨f, rfl⟩
    have hxs : xs.length + 1 = 10 * (k + 1) := by simpa using hl
    simp only [chunksOfFuel, List.map_cons]
    rw [ih f ((x :: xs).drop 10) (by simp; omega) (by omega)]
    have htake : ((x :: xs).take 10).length = 10 := by
      simp
      omega
    rw [htake, List.replicate_succ]

/-- Claim C7 as amended: for every input of 25 symbols the Bybit adapter
sends exactly 5 subscribe frames in order, each carrying exactly 10 args (two
per symbol: `tickers.<S>` and `orderbook.1.<S>`), every frame an
`op = "subscribe"` message with at most `MAX_ARGS_PER_MESSAGE = 10` args. -/
theorem bybit_subscribe_chunking (symbols : List String)
    (h : symbols.length = 25) :
    (bybitSubscribeFrames symbols).length = 5 ∧
      ∀ f ∈ bybitSubscribeFrames symbols,
        f.op = "subscribe" ∧ f.args.length = 10 ∧
          f.args.length ≤ MAX_ARGS_PER_MESSAGE := by
  have hargs : (bybitSubscribeArgs symbols).length = 50 := by
    rw [bybitSubscribeArgs_length, h]
  have hchunks : (chunksOf MAX_ARGS_PER_MESSAGE (bybitSubscribeArgs symbols)).map
      List.length = List.replicate 5 10 := by
    have : chunksOf MAX_ARGS_PER_MESSAGE (bybitSubscribeArgs symbols) =
        chunksOfFuel 10 (bybitSubscribeArgs symbols).length
          (bybitSubscribeArgs symbols) := by
      simp [chunksOf, MAX_ARGS_PER_MESSAGE]
    rw [this, hargs]
    exact chunksOfFuel_map_length 5 50 _ (by omega) (by omega)
  constructor
  · have := congrArg List.length hchunks
    simpa [bybitSubscribeFrames] using this
  · intro f hf
    simp only [bybitSubscribeFrames, List.mem_map] at hf
    obtain ⟨chunk, hc, rfl⟩ := hf
    have : chunk.length ∈ (chunksOf MAX_ARGS_PER_MESSAGE
        (bybitSubscribeArgs symbols)).map List.length :=
      List.mem_map_of_mem List.length hc
    rw [hchunks] at this
    have hlen := List.eq_of_mem_replicate this
    exact ⟨rfl, hlen, by simp [hlen, MAX_ARGS_PER_MESSAGE]⟩

/-- Closed instance for `bybit_subscribe_chunking`: 25 copies of "BTCUSDT"
yield 5 frames, each of exactly 10 args. -/
theorem bybit_subscribe_chunking_witness :
    (List.replicate 25 "BTCUSDT").length = 25 ∧
      (bybitSubscribeFrames (List.replicate 25 "BTCUSDT")).length = 5 :=
  ⟨rfl, (bybit_subscribe_chunking (List.replicate 25 "BTCUSDT") rfl).1⟩

lemma minByFirst_mem_aux (f : α → ℚ) :
    ∀ (l : List α) (acc : Option α) (x : α),
      l.foldl (fun acc x =>
        match acc with
        | Option.none => some x
        | some y => if f x < f y then some x else some y) acc = some x →
      acc = some x ∨ x ∈ l := by
  intro l
  induction l with
  | nil => intro acc x h; exact Or.inl h
  | cons a l ih =>
    intro acc x h
    rcases ih _ x h with h1 | h1
    · cases acc with
      | none =>
        have h2 : some a = some x := h1
        simp only [Option.some.injEq] at h2
        exact Or.inr (h2 ▸ List.mem_cons_self a l)
      | some y =>
        have h2 : (if f a < f y then some a else some y) = some x := h1
        by_cases hc : f a < f y
        · rw [if_pos hc] at h2
          simp only [Option.some.injEq] at h2
          exact Or.inr (h2 ▸ List.mem_cons_self a l)
        · rw [if_neg hc] at h2
          exact Or.inl h2
    · exact Or.inr (List.mem_cons_of_mem a h1)

lemma minByFirst_mem {f : α → ℚ} {l : List α} {x : α}
    (h : minByFirst f l = some x) : x ∈ l := by
  rcases minByFirst_mem_aux f l Option.none x h with h1 | h1
  · exact absurd h1 (by simp)
  · exact h1

lemma maxByFirst_mem_aux (f : α → ℚ) :
    ∀ (l : List α) (acc : Option α) (x : α),
      l.foldl (fun acc x =>
        match acc with
        | Option.none => some x
        | some y => if f x > f y then some x else some y) acc = some x →
      acc = some x ∨ x ∈ l := by
  intro l
  induction l with
  | nil => intro acc x h; exact Or.inl h
  | cons a l ih =>
    intro acc x h
    rcases ih _ x h with h1 | h1
    · cases acc with
      | none =>
        have h2 : some a = some x := h1
        simp only [Option.some.injEq] at h2
        exact Or.inr (h2 ▸ List.mem_cons_self a l)
      | some y =>
        have h2 : (if f a > f y then some a else some y) = some x := h1
        by_cases hc : f a > f y
        · rw [if_pos hc] at h2
          simp only [Option.some.injEq] at h2
          exact Or.inr (h2 ▸ List.mem_cons_self a l)
        · rw [if_neg hc] at h2
          exact Or.inl h2
    · exact Or.inr (List.mem_cons_of_mem a h1)

lemma maxByFirst_mem {f : α → ℚ} {l : List α} {x : α}
    (h : maxByFirst f l = some x) : x ∈ l := by
  rcases maxByFirst_mem_aux f l Option.none x h with h1 | h1
  · exact absurd h1 (by simp)
  · exact h1

lemma validPrices_sound {g : List Row} {p : PRow} (hp : p ∈ validPrices g) :
    ∃ r ∈ g, r.exchange = p.exchange ∧ r.bid_price = some p.bid ∧
      r.ask_price = some p.ask ∧ r.timestamp_utc = p.timestamp_utc := by
  simp only [validPrices, List.mem_filterMap] at hp
  obtain ⟨r, hr, hmk⟩ := hp
  refine ⟨r, hr, ?_⟩
  rcases hb : r.bid_price with _ | b <;> rcases ha : r.ask_price with _ | a <;>
    rw [hb, ha] at hmk <;> simp only [Option.some.injEq] at hmk
  · exact absurd hmk (by simp)
  · exact absurd hmk (by simp)
  · exact absurd hmk (by simp)
  · subst hmk
    exact ⟨rfl, rfl, rfl, rfl⟩

lemma scanSymbol_sound {fresh : List Row} {minP : ℚ} {s : String}
    {o : OppRecord} (ho : o ∈ scanSymbol fresh minP s) :
    ∃ ba bb : PRow,
      ba ∈ validPrices (fresh.filter (fun r => r.symbol = s)) ∧
      bb ∈ validPrices (fresh.filter (fun r => r.symbol = s)) ∧
      o = mkOppRecord s ba bb ∧
      ba.exchange ≠ bb.exchange ∧
      minP ≤ (bb.bid - ba.ask) / ba.ask := by
  simp only [scanSymbol] at ho
  split at ho
  · simp at ho
  · split at ho
    · rename_i bestAsk bestBid hmin hmax
      split at ho
      · simp at ho
      · rename_i hex
        split at ho
        · rename_i hpr
          simp only [List.mem_singleton] at ho
          exact ⟨bestAsk, bestBid, minByFirst_mem hmin, maxByFirst_mem hmax,
            ho, hex, hpr⟩
        · simp at ho
    · simp at ho

lemma freshRows_age {store : List Row} {now maxAge : ℤ} {r : Row}
    (hr : r ∈ freshRows store now maxAge) : now - r.timestamp_utc ≤ maxAge := by
  have := (List.mem_filter.mp hr).2
  exact of_decide_eq_true this

/-- Claim C5.  Every opportunity emitted by `find_arbitrage_opportunities` is
built exclusively from rows that pass the freshness filter (both recorded
update instants are at most `max_data_age_seconds` old at scan time), and its
buy venue differs from its sell venue. -/
theorem find_arb_fresh_and_cross_venue (store : List Row) (now : ℤ)
    (minP : ℚ) (maxAge : ℤ) (o : OppRecord)
    (ho : o ∈ findArbitrageOpportunities store now minP maxAge) :
    o.buy_exchange ≠ o.sell_exchange ∧
      now - o.last_updated_buy ≤ maxAge ∧
      now - o.last_updated_sell ≤ maxAge := by
  simp only [findArbitrageOpportunities, List.mem_flatMap] at ho
  obtain ⟨s, _, hmem⟩ := ho
  obtain ⟨ba, bb, hba, hbb, rfl, hex, _⟩ := scanSymbol_sound hmem
  obtain ⟨rb, hrb, _, _, _, hrbt⟩ := validPrices_sound hba
  obtain ⟨rs, hrs, _, _, _, hrst⟩ := validPrices_sound hbb
  have hfb : rb ∈ freshRows store now maxAge := (List.mem_filter.mp hrb).1
  have hfs : rs ∈ freshRows store now maxAge := (List.mem_filter.mp hrs).1
  refine ⟨hex, ?_, ?_⟩
  · simpa [mkOppRecord, ← hrbt] using freshRows_age hfb
  · simpa [mkOppRecord, ← hrst] using freshRows_age hfs

/-- Closed instance for `find_arb_fresh_and_cross_venue`, at the capStore
scan which emits exactly one opportunity. -/
theorem find_arb_fresh_and_cross_venue_witness :
    (⟨"AAAUSDT", "Bybit", 1, "Binance", 2, 100, 0, 0⟩ : OppRecord) ∈
        findArbitrageOpportunities capStore 0 (1/10) 10 ∧
      "Bybit" ≠ "Binance" ∧ (0 : ℤ) - 0 ≤ 10 ∧ (0 : ℤ) - 0 ≤ 10 := by
  have hm : (⟨"AAAUSDT", "Bybit", 1, "Binance", 2, 100, 0, 0⟩ : OppRecord) ∈
      findArbitrageOpportunities capStore 0 (1/10) 10 := by
    norm_num +decide [findArbitrageOpportunities, freshRows, symbolsOf,
      scanSymbol, validPrices, minByFirst, maxByFirst, mkOppRecord, capStore,
      List.dedup_cons_of_mem, List.dedup_cons_of_not_mem,
      List.filterMap_cons, List.foldl_cons, List.foldl_nil]
  exact ⟨hm, find_arb_fresh_and_cross_venue capStore 0 (1/10) 10 _ hm⟩

/-- Claim C1, refuted at a concrete input.  Spec scenario 4 (`buy.ask = 1`,
`sell.bid = 2`, a 100% spread) is supposed to be suppressed by the cap
`profit < MAX_ACCEPTABLE_PROFIT_PERCENT = 0.5`; the code, whose cap
comparison is commented out at `price_data_store.py` line 150, returns the
opportunity, with fractional profit 1 not below the cap. -/
theorem profit_cap_not_enforced :
    findArbitrageOpportunities capStore 0 (1/10) 10 =
        [⟨"AAAUSDT", "Bybit", 1, "Binance", 2, 100, 0, 0⟩] ∧
      ¬ (((2 : ℚ) - 1) / 1 < MAX_ACCEPTABLE_PROFIT_PERCENT) := by
  constructor
  · norm_num +decide [findArbitrageOpportunities, freshRows, symbolsOf,
      scanSymbol, validPrices, minByFirst, maxByFirst, mkOppRecord, capStore,
      List.dedup_cons_of_mem, List.dedup_cons_of_not_mem,
      List.filterMap_cons, List.foldl_cons, List.foldl_nil]
  · norm_num [MAX_ACCEPTABLE_PROFIT_PERCENT]

/-- Claim C1 as amended: every emitted record satisfies only the lower
threshold — its fractional profit `(sell_price - buy_price) / buy_price` is
at least `min_profit_percent` and `profit_percent` is that fraction times
100; no upper bound is enforced. -/
theorem find_arb_profit_lower_bound_only (store : List Row) (now : ℤ)
    (minP : ℚ) (maxAge : ℤ) (o : OppRecord)
    (ho : o ∈ findArbitrageOpportunities store now minP maxAge) :
    o.profit_percent = (o.sell_price - o.buy_price) / o.buy_price * 100 ∧
      minP ≤ (o.sell_price - o.buy_price) / o.buy_price := by
  simp only [findArbitrageOpportunities, List.mem_flatMap] at ho
  obtain ⟨s, _, hmem⟩ := ho
  obtain ⟨ba, bb, _, _, rfl, _, hpr⟩ := scanSymbol_sound hmem
  exact ⟨rfl, hpr⟩

/-- Closed instance for `find_arb_profit_lower_bound_only`, at the capStore
record whose fractional profit is 1. -/
theorem find_arb_profit_lower_bound_only_witness :
    (⟨"AAAUSDT", "Bybit", 1, "Binance", 2, 100, 0, 0⟩ : OppRecord) ∈
        findArbitrageOpportunities capStore 0 (1/10) 10 ∧
      (100 : ℚ) = ((2 : ℚ) - 1) / 1 * 100 ∧ (1 : ℚ)/10 ≤ ((2 : ℚ) - 1) / 1 := by
  have hm : (⟨"AAAUSDT", "Bybit", 1, "Binance", 2, 100, 0, 0⟩ : OppRecord) ∈
      findArbitrageOpportunities capStore 0 (1/10) 10 := by
    norm_num +decide [findArbitrageOpportunities, freshRows, symbolsOf,
      scanSymbol, validPrices, minByFirst, maxByFirst, mkOppRecord, capStore,
      List.dedup_cons_of_mem, List.dedup_cons_of_not_mem,
      List.filterMap_cons, List.foldl_cons, List.foldl_nil]
  exact ⟨hm, find_arb_profit_lower_bound_only capStore 0 (1/10) 10 _ hm⟩

/-- Claim C2, refuted at a concrete input.  On a symbol whose minimal ask and
maximal bid sit on the same venue while a cross-venue ordered pair still
passes every threshold (profit 1/3 ∈ [1/10, 1/2)), the code's
best-ask/best-bid scan emits nothing, whereas the spec's pair-enumeration
algorithm emits that pair — the two forms do not produce identical outputs,
and a passing pair goes unemitted. -/
theorem bestpair_differs_from_enumeration :
    findArbitrageOpportunities divergeStore 0 (1/10) 10 = [] ∧
      findOpportunitiesSpec divergeStore 0 (1/10) 10 =
        [⟨"AAAUSDT", "Bybit", 3/2, "Binance", 2, 100/3, 0, 0⟩] := by
  constructor
  · norm_num +decide [findArbitrageOpportunities, freshRows, symbolsOf,
      scanSymbol, validPrices, minByFirst, maxByFirst, mkOppRecord,
      divergeStore, List.dedup_cons_of_mem, List.dedup_cons_of_not_mem,
      List.filterMap_cons, List.foldl_cons, List.foldl_nil]
  · norm_num +decide [findOpportunitiesSpec, freshRows, symbolsOf,
      validPrices, mkOppRecord, divergeStore, MAX_ACCEPTABLE_PROFIT_PERCENT,
      List.dedup_cons_of_mem, List.dedup_cons_of_not_mem,
      List.filterMap_cons, List.foldl_cons, List.foldl_nil]

lemma scanSymbol_eval {fresh : List Row} {minP : ℚ} {s : String} {ba bb : PRow}
    (hlen : ¬ (fresh.filter (fun r => r.symbol = s)).length < 2)
    (hmin : minByFirst (fun p => p.ask)
      (validPrices (fresh.filter (fun r => r.symbol = s))) = some ba)
    (hmax : maxByFirst (fun p => p.bid)
      (validPrices (fresh.filter (fun r => r.symbol = s))) = some bb)
    (hex : ba.exchange ≠ bb.exchange)
    (hpr : minP ≤ (bb.bid - ba.ask) / ba.ask) :
    scanSymbol fresh minP s = [mkOppRecord s ba bb] := by
  simp only [scanSymbol]
  rw [if_neg hlen, hmin, hmax]
  show (if ba.exchange = bb.exchange then ([] : List OppRecord)
    else if minP ≤ (bb.bid - ba.ask) / ba.ask then [mkOppRecord s ba bb]
    else []) = [mkOppRecord s ba bb]
  rw [if_neg hex, if_pos hpr]

/-- Claim C2 as amended: per symbol, the code considers only the single pair
formed by the first row attaining the minimal ask and the first row attaining
the maximal bid among the fresh both-sided quotes; when the group has at
least two fresh rows, those two venues differ and the profit meets the lower
threshold, exactly that pair's opportunity is emitted for the symbol and any
emitted record carrying the symbol equals it — other passing ordered pairs
are never emitted, so the best-ask/best-bid form is not equivalent to the
spec's pair enumeration. -/
theorem find_arb_emits_best_pair (store : List Row) (now : ℤ) (minP : ℚ)
    (maxAge : ℤ) (s : String) (ba bb : PRow)
    (hlen : 2 ≤ ((freshRows store now maxAge).filter (fun r => r.symbol = s)).length)
    (hmin : minByFirst (fun p => p.ask)
      (validPrices ((freshRows store now maxAge).filter (fun r => r.symbol = s))) = some ba)
    (hmax : maxByFirst (fun p => p.bid)
      (validPrices ((freshRows store now maxAge).filter (fun r => r.symbol = s))) = some bb)
    (hex : ba.exchange ≠ bb.exchange)
    (hpr : minP ≤ (bb.bid - ba.ask) / ba.ask) :
    mkOppRecord s ba bb ∈ findArbitrageOpportunities store now minP maxAge ∧
      ∀ o ∈ findArbitrageOpportunities store now minP maxAge,
        o.symbol = s → o = mkOppRecord s ba bb := by
  have heval := @scanSymbol_eval (freshRows store now maxAge) minP s ba bb
    (by omega) hmin hmax hex hpr
  have hsmem : s ∈ symbolsOf (freshRows store now maxAge) := by
    have hne : ∃ r, r ∈ (freshRows store now maxAge).filter
        (fun r => r.symbol = s) := by
      apply List.exists_mem_of_ne_nil
      intro hnil
      rw [hnil] at hlen
      simp at hlen
    obtain ⟨r, hr⟩ := hne
    have hmf := List.mem_filter.mp hr
    have hsym : r.symbol = s := of_decide_eq_true hmf.2
    exact List.mem_dedup.mpr
      (hsym ▸ List.mem_map_of_mem (fun r => r.symbol) hmf.1)
  constructor
  · simp only [findArbitrageOpportunities, List.mem_flatMap]
    exact ⟨s, hsmem, heval ▸ List.mem_singleton.mpr rfl⟩
  · intro o ho hos
    simp only [findArbitrageOpportunities, List.mem_flatMap] at ho
    obtain ⟨s', _, hmem⟩ := ho
    have hsym : o.symbol = s' := by
      obtain ⟨ba', bb', _, _, rfl, _, _⟩ := scanSymbol_sound hmem
      rfl
    rw [hos] at hsym
    rw [← hsym, heval] at hmem
    simpa using hmem

/-- Closed instance for `find_arb_emits_best_pair`, at the demoStore scan
(spec scenario 1). -/
theorem find_arb_emits_best_pair_witness :
    mkOppRecord "BTCUSDT" ⟨"Binance", 30000, 30010, 0⟩
        ⟨"Bybit", 30100, 30110, 0⟩ ∈
      findArbitrageOpportunities demoStore 0 (1/1000) 60 :=
  (find_arb_emits_best_pair demoStore 0 (1/1000) 60 "BTCUSDT"
    ⟨"Binance", 30000, 30010, 0⟩ ⟨"Bybit", 30100, 30110, 0⟩
    (by norm_num +decide [freshRows, demoStore])
    (by norm_num +decide [freshRows, validPrices, minByFirst, demoStore,
      List.filterMap_cons, List.foldl_cons, List.foldl_nil])
    (by norm_num +decide [freshRows, validPrices, maxByFirst, demoStore,
      List.filterMap_cons, List.foldl_cons, List.foldl_nil])
    (by decide)
    (by norm_num)).1

lemma getPriceField_setPriceField_self (pd : PriceData) (key : String)
    (x : ℚ) (hk : key ∈ priceKeys) :
    (pd.setPriceField key x).getPriceField key = some x := by
  simp only [priceKeys] at hk
  fin_cases hk <;>
    simp +decide [PriceData.setPriceField, PriceData.getPriceField]

lemma getPriceField_setPriceField_other (pd : PriceData) (k1 k2 : String)
    (x : ℚ) (h : k1 ≠ k2) :
    (pd.setPriceField k1 x).getPriceField k2 = pd.getPriceField k2 := by
  unfold PriceData.setPriceField PriceData.getPriceField
  split_ifs <;> simp_all

lemma getPriceField_set_symbol (pd : PriceData) (v : String) (key : String) :
    ({ pd with symbol := v }).getPriceField key = pd.getPriceField key := by
  unfold PriceData.getPriceField
  split_ifs <;> rfl

lemma updateEntry_preserves_other (parse : String → Option ℚ)
    (pd : PriceData) (e : String × Option String) (key : String)
    (h : e.1 ≠ key) :
    (PriceData.updateEntry parse pd e).getPriceField key =
      pd.getPriceField key := by
  obtain ⟨k, v⟩ := e
  cases v with
  | none => rfl
  | some v =>
    simp only at h
    simp only [PriceData.updateEntry]
    split_ifs with h1 h2
    · rcases hp : parse v with _ | x
      · rfl
      · exact getPriceField_setPriceField_other pd k key x h
    · exact getPriceField_set_symbol pd v key
    · rfl

lemma update_preserves_unlisted (parse : String → Option ℚ)
    (data : List (String × Option String)) (pd : PriceData) (key : String)
    (h : key ∉ data.map Prod.fst) :
    (PriceData.update parse pd data).getPriceField key =
      pd.getPriceField key := by
  induction data generalizing pd with
  | nil => rfl
  | cons e rest ih =>
    simp only [List.map_cons, List.mem_cons, not_or] at h
    simp only [PriceData.update, List.foldl_cons]
    have hrec := ih (PriceData.updateEntry parse pd e) h.2
    simp only [PriceData.update] at hrec
    rw [hrec]
    exact updateEntry_preserves_other parse pd e key (fun hh => h.1 hh.symm)

/-- Claim C9.  `PriceData.update` processes each price field independently:
with pairwise-distinct keys, a price-field entry whose string value parses
stores the parsed number, and one whose value fails parsing is silently
dropped — the previously stored value is kept, no error is raised (the
function is total), and the remaining fields of the same update are
unaffected (each satisfies this same equation). -/
theorem price_data_update_parses_or_drops (parse : String → Option ℚ)
    (pd : PriceData) (data : List (String × Option String))
    (key : String) (v : String)
    (hnd : (data.map Prod.fst).Nodup) (hk : key ∈ priceKeys)
    (hmem : (key, some v) ∈ data) :
    (PriceData.update parse pd data).getPriceField key =
      match parse v with
      | some x => some x
      | Option.none => pd.getPriceField key := by
  induction data generalizing pd with
  | nil => simp at hmem
  | cons e rest ih =>
    simp only [List.map_cons, List.nodup_cons] at hnd
    rcases List.mem_cons.mp hmem with heq | hrest
    · subst heq
      simp only [PriceData.update, List.foldl_cons]
      have hstep : PriceData.updateEntry parse pd (key, some v) =
          match parse v with
          | some x => pd.setPriceField key x
          | Option.none => pd := by
        simp [PriceData.updateEntry, hk]
      rw [hstep]
      have hunlisted := update_preserves_unlisted parse rest
        (match parse v with
          | some x => pd.setPriceField key x
          | Option.none => pd) key hnd.1
      simp only [PriceData.update] at hunlisted
      rw [hunlisted]
      rcases hp : parse v with _ | x
      · rfl
      · exact getPriceField_setPriceField_self pd key x hk
    · have hkey_in : key ∈ rest.map Prod.fst := by
        have : (key, some v).1 ∈ rest.map Prod.fst :=
          List.mem_map_of_mem Prod.fst hrest
        simpa using this
      have hne : e.1 ≠ key := fun hh => hnd.1 (hh ▸ hkey_in)
      simp only [PriceData.update, List.foldl_cons]
      have hrec := ih (PriceData.updateEntry parse pd e) hnd.2 hrest
      simp only [PriceData.update] at hrec
      rw [hrec, updateEntry_preserves_other parse pd e key hne]

/-- A concrete instantiation of the abstracted `float(...)` for the witness:
a finite table that parses "7" and fails on anything else. -/
def natParse (s : String) : Option ℚ :=
  if s = "7" then some 7 else Option.none

/-- Closed instance for `price_data_update_parses_or_drops`: an update
carrying a parsable `bid_price` "7" and an unparsable `ask_price` "x" stores
bid 7 and keeps the previous ask. -/
theorem price_data_update_parses_or_drops_witness :
    (PriceData.update natParse
        ⟨.binance, "BTCUSDT", Option.none, Option.none, some 5, Option.none, 0⟩
        [("bid_price", some "7"), ("ask_price", some "x")]).getPriceField
      "bid_price" = some 7 ∧
    (PriceData.update natParse
        ⟨.binance, "BTCUSDT", Option.none, Option.none, some 5, Option.none, 0⟩
        [("bid_price", some "7"), ("ask_price", some "x")]).getPriceField
      "ask_price" = some 5 := by
  have h1 := price_data_update_parses_or_drops natParse
    ⟨.binance, "BTCUSDT", Option.none, Option.none, some 5, Option.none, 0⟩
    [("bid_price", some "7"), ("ask_price", some "x")] "bid_price" "7"
    (by decide) (by decide) (by decide)
  have h2 := price_data_update_parses_or_drops natParse
    ⟨.binance, "BTCUSDT", Option.none, Option.none, some 5, Option.none, 0⟩
    [("bid_price", some "7"), ("ask_price", some "x")] "ask_price" "x"
    (by decide) (by decide) (by decide)
  have hp7 : natParse "7" = some 7 := rfl
  have hpx : natParse "x" = Option.none := rfl
  rw [hp7] at h1
  rw [hpx] at h2
  exact ⟨h1, h2⟩

end ExchangeObserver
